import Mathlib

/-!
Verification of the domainlooker orchestration and aggregation engine.

This file gives a shallow embedding, in Lean 4, of the pure data-shaping
core of the program: the CSV export sink (`csv-export.ts`), the threat
classifier, the pricing analyzer (`PricingExportService.analyzePricing`),
the pricing service fan-out (`DomainPricingService.checkAvailabilityAndPricing`),
the per-domain orchestrator slot assignment (`DomainInspector.investigate`
and `DomainInspector.investigateSingle`), and the batch scheduler
(`DomainInspector.investigateMultiple`).

Modelling conventions:
- JavaScript numbers carrying prices are modelled as `ℚ`; `x || Infinity`
  keys are modelled in `WithTop ℚ` (`⊤` plays `Infinity`, and `0` is falsy
  so it also maps to `⊤`).
- `undefined`/`null` optional values are `Option`; a report field that is
  never assigned is distinguished from one assigned `null` by a second
  `Option` layer where that distinction matters (slot assignment).
- Ambient effects are passed explicitly: `Date.now()` becomes a `now : Int`
  millisecond timestamp parameter, and `new Date(string).getTime()` becomes
  a `parseDate : String → Option Int` parameter (`none` models an invalid
  date, whose `NaN` arithmetic makes every comparison false, exactly as the
  `none` branch does here).
- Asynchronous calls that settle are modelled by their settled outcomes,
  passed as explicit arguments.
-/

/-- Does the second character list start with the first? -/
def startsWithChars : List Char → List Char → Bool
  | [], _ => true
  | _ :: _, [] => false
  | p :: ps, c :: cs => p == c && startsWithChars ps cs

/-- Does the pattern occur as a contiguous run inside the list? -/
def occursIn (pat : List Char) : List Char → Bool
  | [] => pat.isEmpty
  | c :: cs => startsWithChars pat (c :: cs) || occursIn pat cs

/-- Boolean substring test, modelling JavaScript `String.prototype.includes`. -/
def strIncludes (s pat : String) : Bool :=
  occursIn pat.data s.data

/-- Decimal rendering of a rational with two digits after the point,
modelling JavaScript `Number.prototype.toFixed(2)` (round to nearest
hundredth, half up). -/
def toFixed2 (q : ℚ) : String :=
  let c : Int := (q * 100 + 1/2).floor
  let sign := if c < 0 then "-" else ""
  let a := c.natAbs
  sign ++ toString (a / 100) ++ "." ++ (if a % 100 < 10 then "0" else "") ++ toString (a % 100)

/-- Comparison key used by the cheapest-quote reduces: JavaScript
`price || Infinity`, where an absent price and a price of `0` (both falsy)
become `Infinity`. -/
def jsPriceKey (p : Option ℚ) : WithTop ℚ :=
  match p with
  | none => ⊤
  | some x => if x = 0 then ⊤ else (x : WithTop ℚ)

/-- Shape of the source's `Array.prototype.reduce((prev, curr) => key curr < key prev ? curr : prev)`
with no initial accumulator: the head of the (non-empty) array seeds the fold. -/
def cheapestBy {α : Type} (f : α → WithTop ℚ) (q0 : α) (qs : List α) : α :=
  qs.foldl (fun prev curr => if f curr < f prev then curr else prev) q0

/-- Minimum key over a non-empty list, written as the fold the reduce computes. -/
def minKeyBy {α : Type} (f : α → WithTop ℚ) (q0 : α) (qs : List α) : WithTop ℚ :=
  qs.foldl (fun a x => min a (f x)) (f q0)

/-- JavaScript `Math.min(...list)`: `Infinity` on the empty list. -/
def jsMinList (l : List ℚ) : WithTop ℚ :=
  l.foldl (fun a x => min a (x : WithTop ℚ)) ⊤

/-- JavaScript `Math.max(...list)`: `-Infinity` on the empty list. -/
def jsMaxList (l : List ℚ) : WithBot ℚ :=
  l.foldl (fun a x => max a (x : WithBot ℚ)) ⊥

/-- JavaScript subtraction `max - min` on the extended values produced by
`Math.max`/`Math.min`: any expression involving `-Infinity` on the left or
`Infinity` on the right yields `-Infinity`. -/
def jsSub (M : WithBot ℚ) (m : WithTop ℚ) : WithBot ℚ :=
  WithBot.recBotCoe ⊥ (fun Mv => WithTop.recTopCoe ⊥ (fun mv => ((Mv - mv : ℚ) : WithBot ℚ)) m) M

/-! ## Data model (`src/types/index.ts`) -/

/-- An MX record entry, from `DNSData.mx`. -/
structure MXRecord where
  priority : Int
  exchange : String
deriving DecidableEq

/-- WHOIS registration data, from `WhoisData`. -/
structure WhoisData where
  registrar : Option String
  registrationDate : Option String
  expirationDate : Option String
  nameServers : Option (List String)
  registrantCountry : Option String
  status : Option (List String)
deriving DecidableEq

/-- Start-of-authority record, from `DNSData.soa`. -/
structure SOAData where
  primary : String
  admin : String
  serial : Int
  refresh : Int
  retry : Int
  expiration : Int
  minimum : Int
deriving DecidableEq

/-- Name-resolution data, from `DNSData`. -/
structure DNSData where
  a : Option (List String)
  aaaa : Option (List String)
  mx : Option (List MXRecord)
  ns : Option (List String)
  txt : Option (List String)
  cname : Option (List String)
  soa : Option SOAData
deriving DecidableEq

/-- Certificate data, from `SSLData`. -/
structure SSLData where
  issuer : Option String
  subject : Option String
  validFrom : Option String
  validTo : Option String
  fingerprint : Option String
  serialNumber : Option String
  signatureAlgorithm : Option String
  keySize : Option Int
  isValid : Option Bool
  daysUntilExpiry : Option Int
deriving DecidableEq

/-- One discovered network service, from `NetworkData.services`. -/
structure ServiceInfo where
  port : Int
  protocol : String
  service : String
  version : Option String
deriving DecidableEq

/-- Geographic location, from `NetworkData.location`. -/
structure GeoLocation where
  country : String
  city : String
  coordinates : Option (ℚ × ℚ)
deriving DecidableEq

/-- Port-scan data, from `NetworkData`. -/
structure NetworkData where
  openPorts : Option (List Int)
  services : Option (List ServiceInfo)
  location : Option GeoLocation
deriving DecidableEq

/-- Per-source subdomain lists, from `SubdomainData.sources`. -/
structure SubdomainSources where
  dnsEnumeration : List String
  certificateTransparency : List String
  commonNames : List String
deriving DecidableEq

/-- Subdomain-discovery data, from `SubdomainData`. -/
structure SubdomainData where
  subdomains : List String
  sources : SubdomainSources
  totalFound : Int
deriving DecidableEq

/-- Security metadata, from `SecurityData` (carried but unused by the core). -/
structure SecurityData where
  threatLevel : Option String
  blacklisted : Option Bool
  malwareDetected : Option Bool
  phishingRisk : Option Bool
  reputation : Option ℚ
deriving DecidableEq

/-- A per-provider pricing quote, from `DomainPricing`. -/
structure DomainPricing where
  provider : String
  available : Bool
  registrationPrice : Option ℚ
  renewalPrice : Option ℚ
  currency : String
  url : String
  error : Option String
deriving DecidableEq

/-- The pricing service's result for one domain, from
`DomainAvailabilityResult`; `checkedAt` is a millisecond timestamp. -/
structure DomainAvailabilityResult where
  domain : String
  isAvailable : Bool
  pricing : List DomainPricing
  checkedAt : Int
deriving DecidableEq

/-- The per-domain aggregate report, from `DomainInfo`. Every field a data
source fills is optional; `none` models both an unset field and an assigned
`null`, which downstream consumers treat identically. -/
structure DomainInfo where
  domain : String
  whois : Option WhoisData
  dns : Option DNSData
  ssl : Option SSLData
  security : Option SecurityData
  network : Option NetworkData
  subdomains : Option SubdomainData
  pricing : Option DomainAvailabilityResult
deriving DecidableEq

/-! ## CSV export sink (`csv-export.ts`, `CSVExportService`) -/

/-- Columns of the primary CSV export, from the `CSVExportService` constructor. -/
def csvHeaderFields : List String :=
  ["Domain", "Registrar", "Registration Date", "Expiration Date",
   "Registrant Country", "Status", "Name Servers", "IPv4 Addresses",
   "IPv6 Addresses", "MX Records", "TXT Records", "SSL Issuer", "SSL Subject",
   "SSL Valid From", "SSL Valid To", "SSL Days Until Expiry", "SSL Valid",
   "Open Ports", "Services", "Subdomains Found", "Sample Subdomains",
   "Available for Registration", "Cheapest Registration Price",
   "Cheapest Renewal Price", "Best Registration Provider",
   "Best Renewal Provider", "All Pricing Data", "Threat Level", "Threats"]

/-- The header row, joined with commas as the constructor does. -/
def csvHeader : String := String.intercalate "," csvHeaderFields

/-- Initial `csvData` state of a fresh `CSVExportService`: just the header row. -/
def initCsvData : List String := [csvHeader]

/-- Does a CSV value need quoting? From `escapeCSV`: it contains a comma, a
double quote, or a newline. -/
def needsQuoting (s : List Char) : Bool :=
  s.any (fun c => c = ',' || c = '"' || c = '\n')

/-- Double every internal double quote, modelling `value.replace(/"/g, '""')`. -/
def doubleQuotesIn (s : List Char) : List Char :=
  s.flatMap (fun c => if c = '"' then ['"', '"'] else [c])

/-- Character-level body of `escapeCSV`: empty values pass through, values
with a comma, quote or newline are wrapped in quotes with internal quotes
doubled, all other values are unchanged. -/
def escapeCSVChars (s : List Char) : List Char :=
  if s = [] then []
  else if needsQuoting s then '"' :: (doubleQuotesIn s ++ ['"'])
  else s

/-- String-level `escapeCSV`, as used on every field of a CSV row. -/
def escapeCSV (s : String) : String :=
  String.mk (escapeCSVChars s.data)

/-- Threat-rule evaluation of `CSVExportService.assessThreats`, kept in the
source's push order: certificate expiry, missing certificate, recent
registration, invalid certificate. `parseDate` models `new Date(s).getTime()`
(`none` for an invalid date) and `now` models `Date.now()`; the source's
`daysSinceReg < 30` float comparison is the exact integer comparison
`now - t < 30 * 86400000`. -/
def assessThreats (parseDate : String → Option Int) (now : Int) (info : DomainInfo) : List String :=
  let expiryThreats : List String :=
    match info.ssl.bind (·.daysUntilExpiry) with
    | some d => if d < 30 then ["SSL expires in " ++ toString d ++ " days"] else []
    | none => []
  let missingThreats : List String :=
    if info.ssl.isNone then ["No SSL certificate detected"] else []
  let recentThreats : List String :=
    match info.whois.bind (·.registrationDate) with
    | some rd =>
      match parseDate rd with
      | some t => if now - t < 30 * 86400000 then ["Domain registered recently"] else []
      | none => []
    | none => []
  let invalidThreats : List String :=
    match info.ssl with
    | some ssl => if ssl.isValid = some false then ["Invalid SSL certificate"] else []
    | none => []
  expiryThreats ++ missingThreats ++ recentThreats ++ invalidThreats

/-- Severity derivation of `CSVExportService.getThreatLevel`. -/
def getThreatLevel (threats : List String) : String :=
  if threats.isEmpty then "LOW"
  else if threats.any (fun t => strIncludes t "Invalid SSL" || strIncludes t "No SSL") then "HIGH"
  else if threats.any (fun t => strIncludes t "expires") then "MEDIUM"
  else "LOW"

/-- Validity filter shared by `CSVExportService.processPricingData` and
`PricingExportService.analyzePricing`: `p.available && p.registrationPrice`,
where the registration price is truthy exactly when present and nonzero. -/
def codeValidQuote (p : DomainPricing) : Bool :=
  p.available && (match p.registrationPrice with
    | some x => decide (x ≠ 0)
    | none => false)

/-- The six pricing-derived strings `processPricingData` returns for a CSV row. -/
structure PricingCSVFields where
  isAvailable : String
  cheapestRegistration : String
  cheapestRenewal : String
  bestRegProvider : String
  bestRenewalProvider : String
  allPricing : String
deriving DecidableEq

/-- Price formatting `price?.toFixed(2) || 'N/A'`: a present price is
rendered with two decimals (the rendering of `0` is the truthy string
`"0.00"`), an absent price gives `N/A`. -/
def optPriceText (p : Option ℚ) : String :=
  match p with
  | some x => toFixed2 x
  | none => "N/A"

/-- Pricing-column computation of `CSVExportService.processPricingData`. -/
def processPricingData (pricing : Option DomainAvailabilityResult) : PricingCSVFields :=
  match pricing with
  | none => ⟨"Unknown", "", "", "", "", ""⟩
  | some pr =>
    match pr.pricing.filter codeValidQuote with
    | [] => ⟨if pr.isAvailable then "Yes" else "No", "", "", "", "", ""⟩
    | q :: qs =>
      let cheapestReg := cheapestBy (fun p => jsPriceKey p.registrationPrice) q qs
      let cheapestRen := cheapestBy (fun p => jsPriceKey p.renewalPrice) q qs
      let allPricingText := String.intercalate " | " ((q :: qs).map (fun p =>
        p.provider ++ ": Reg $" ++ optPriceText p.registrationPrice ++
          " / Ren $" ++ optPriceText p.renewalPrice))
      ⟨if pr.isAvailable then "Yes" else "No",
       "$" ++ optPriceText cheapestReg.registrationPrice,
       "$" ++ optPriceText cheapestRen.renewalPrice,
       cheapestReg.provider,
       cheapestRen.provider,
       allPricingText⟩

/-- CSV row built by `CSVExportService.addDomain` for one report, before it
is pushed onto `csvData`. -/
def csvRowFor (parseDate : String → Option Int) (now : Int) (info : DomainInfo) : String :=
  let nameServers := ((info.whois.bind (·.nameServers)).map (String.intercalate "; ")).getD ""
  let ipv4Addresses := ((info.dns.bind (·.a)).map (String.intercalate "; ")).getD ""
  let ipv6Addresses := ((info.dns.bind (·.aaaa)).map (String.intercalate "; ")).getD ""
  let mxRecords := ((info.dns.bind (·.mx)).map (fun l =>
    String.intercalate "; " (l.map (fun m => toString m.priority ++ " " ++ m.exchange)))).getD ""
  let txtRecords := ((info.dns.bind (·.txt)).map (fun l =>
    String.intercalate "; " (l.take 3))).getD ""
  let openPorts := ((info.network.bind (·.openPorts)).map (fun l =>
    String.intercalate "; " (l.map toString))).getD ""
  let services := ((info.network.bind (·.services)).map (fun l =>
    String.intercalate "; " (l.map (fun s => toString s.port ++ ":" ++ s.service)))).getD ""
  let status := ((info.whois.bind (·.status)).map (String.intercalate "; ")).getD ""
  let subdomainCount := (info.subdomains.map (fun s => toString s.totalFound)).getD "0"
  let sampleSubdomains := (info.subdomains.map (fun s =>
    String.intercalate "; " (s.subdomains.take 5))).getD ""
  let pricingData := processPricingData info.pricing
  let threats := assessThreats parseDate now info
  let threatLevel := getThreatLevel threats
  String.intercalate "," (List.map escapeCSV
    [info.domain,
     ((info.whois.bind (·.registrar)).getD ""),
     ((info.whois.bind (·.registrationDate)).getD ""),
     ((info.whois.bind (·.expirationDate)).getD ""),
     ((info.whois.bind (·.registrantCountry)).getD ""),
     status, nameServers, ipv4Addresses, ipv6Addresses, mxRecords, txtRecords,
     ((info.ssl.bind (·.issuer)).getD ""),
     ((info.ssl.bind (·.subject)).getD ""),
     ((info.ssl.bind (·.validFrom)).getD ""),
     ((info.ssl.bind (·.validTo)).getD ""),
     (((info.ssl.bind (·.daysUntilExpiry)).map toString).getD ""),
     (((info.ssl.bind (·.isValid)).map (fun b => if b then "true" else "false")).getD ""),
     openPorts, services, subdomainCount, sampleSubdomains,
     pricingData.isAvailable, pricingData.cheapestRegistration,
     pricingData.cheapestRenewal, pricingData.bestRegProvider,
     pricingData.bestRenewalProvider, pricingData.allPricing,
     threatLevel,
     String.intercalate "; " threats])

/-- State transition of `CSVExportService.addDomain`: one row is always
pushed onto `csvData`, whatever fields of the report are absent. -/
def addDomain (parseDate : String → Option Int) (now : Int) (csvData : List String)
    (info : DomainInfo) : List String :=
  csvData ++ [csvRowFor parseDate now info]

/-- Row count of `CSVExportService.getRowCount`: the stored line count minus
the header row. -/
def getRowCount (csvData : List String) : Nat :=
  csvData.length - 1

/-! ## Pricing analyzer (`PricingExportService.analyzePricing`) -/

/-- Cheapest-on-an-axis summary, from the `cheapestRegistration` and
`cheapestRenewal` objects `analyzePricing` builds. -/
structure CheapestInfo where
  provider : String
  price : Option ℚ
  currency : String
deriving DecidableEq

/-- Min/max/spread triple over one axis, from the `priceRange` objects; the
extended values mirror `Math.min()`/`Math.max()` on a possibly empty list. -/
structure RangeInfo where
  low : WithTop ℚ
  high : WithBot ℚ
  spread : WithBot ℚ

/-- The `priceRange` object: an unconditional registration range and a
renewal range that is `null` when no positive renewal price exists. -/
structure PriceRange where
  registration : RangeInfo
  renewal : Option RangeInfo

/-- Result shape of `analyzePricing`: the early-return record maps to every
optional field `none` and `providerCount = 0`. -/
structure PricingAnalysisResult where
  cheapestRegistration : Option CheapestInfo
  cheapestRenewal : Option CheapestInfo
  priceRange : Option PriceRange
  avgRegistrationPrice : Option ℚ
  avgRenewalPrice : Option ℚ
  providerCount : Nat

/-- The record `analyzePricing` returns when the filtered quote list is empty. -/
def emptyAnalysis : PricingAnalysisResult :=
  { cheapestRegistration := none, cheapestRenewal := none, priceRange := none,
    avgRegistrationPrice := none, avgRenewalPrice := none, providerCount := 0 }

/-- Quote-set analysis of `PricingExportService.analyzePricing`. The
`filterMap`-then-filter composition renders the source's
`map(p => p.price!).filter(p => p > 0)`: an absent price maps to `undefined`,
which the `> 0` filter drops, exactly as `filterMap` drops `none`. -/
def analyzePricing (pricing : List DomainPricing) : PricingAnalysisResult :=
  match pricing.filter codeValidQuote with
  | [] => emptyAnalysis
  | q :: qs =>
    let regPrices := ((q :: qs).filterMap (·.registrationPrice)).filter (fun p => decide (0 < p))
    let renewalPrices := ((q :: qs).filterMap (·.renewalPrice)).filter (fun p => decide (0 < p))
    let cheapestReg := cheapestBy (fun p => jsPriceKey p.registrationPrice) q qs
    let cheapestRenewal := cheapestBy (fun p => jsPriceKey p.renewalPrice) q qs
    { cheapestRegistration := some
        { provider := cheapestReg.provider, price := cheapestReg.registrationPrice,
          currency := cheapestReg.currency },
      cheapestRenewal := some
        { provider := cheapestRenewal.provider, price := cheapestRenewal.renewalPrice,
          currency := cheapestRenewal.currency },
      priceRange := some
        { registration :=
            { low := jsMinList regPrices, high := jsMaxList regPrices,
              spread := jsSub (jsMaxList regPrices) (jsMinList regPrices) },
          renewal :=
            if 0 < renewalPrices.length then
              some { low := jsMinList renewalPrices, high := jsMaxList renewalPrices,
                     spread := jsSub (jsMaxList renewalPrices) (jsMinList renewalPrices) }
            else none },
      avgRegistrationPrice :=
        if 0 < regPrices.length then some (regPrices.sum / (regPrices.length : ℚ)) else none,
      avgRenewalPrice :=
        if 0 < renewalPrices.length then some (renewalPrices.sum / (renewalPrices.length : ℚ)) else none,
      providerCount := (q :: qs).length }

/-! ## Pricing service (`domain-pricing.ts`, `DomainPricingService`) -/

/-- TLD extraction `domain.split('.').pop()?.toLowerCase()`. -/
def tldOf (domain : String) : Option String :=
  ((domain.splitOn ".").getLast?).map String.toLower

/-- Cloudflare estimated pricing table (registration, renewal), from
`getCloudflareEstimatedPricing`. -/
def cloudflareTable (tld : String) : Option (ℚ × ℚ) :=
  if tld = "com" then some (9.77, 9.77)
  else if tld = "net" then some (11.85, 11.85)
  else if tld = "org" then some (12.06, 12.06)
  else if tld = "info" then some (4.85, 17.85)
  else if tld = "biz" then some (4.85, 17.85)
  else if tld = "us" then some (8.57, 8.57)
  else if tld = "co" then some (30.00, 30.00)
  else if tld = "io" then some (65.00, 65.00)
  else if tld = "dev" then some (15.00, 15.00)
  else if tld = "app" then some (20.00, 20.00)
  else none

/-- Namecheap estimated pricing table, from `getNamecheapEstimatedPricing`. -/
def namecheapTable (tld : String) : Option (ℚ × ℚ) :=
  if tld = "com" then some (10.99, 13.99)
  else if tld = "net" then some (12.99, 15.99)
  else if tld = "org" then some (11.99, 14.99)
  else if tld = "info" then some (2.99, 21.99)
  else if tld = "biz" then some (1.99, 19.99)
  else if tld = "us" then some (8.88, 8.88)
  else if tld = "co" then some (8.88, 32.99)
  else if tld = "io" then some (39.99, 69.99)
  else if tld = "dev" then some (12.99, 17.99)
  else if tld = "app" then some (14.99, 20.99)
  else none

/-- Porkbun estimated pricing table, from `getPorkbunEstimatedPricing`. -/
def porkbunTable (tld : String) : Option (ℚ × ℚ) :=
  if tld = "com" then some (8.97, 9.73)
  else if tld = "net" then some (10.69, 11.84)
  else if tld = "org" then some (9.17, 12.18)
  else if tld = "info" then some (3.25, 17.67)
  else if tld = "biz" then some (4.14, 18.44)
  else if tld = "us" then some (7.65, 8.37)
  else if tld = "co" then some (6.98, 30.78)
  else if tld = "io" then some (47.20, 54.00)
  else if tld = "dev" then some (11.48, 15.33)
  else if tld = "app" then some (15.33, 18.44)
  else none

/-- GoDaddy estimated pricing table, from `getGoDaddyEstimatedPricing`. -/
def godaddyTable (tld : String) : Option (ℚ × ℚ) :=
  if tld = "com" then some (11.99, 17.99)
  else if tld = "net" then some (12.99, 17.99)
  else if tld = "org" then some (12.99, 17.99)
  else if tld = "info" then some (2.99, 19.99)
  else if tld = "biz" then some (2.99, 19.99)
  else if tld = "us" then some (9.99, 9.99)
  else if tld = "co" then some (24.99, 34.99)
  else if tld = "io" then some (59.99, 79.99)
  else if tld = "dev" then some (17.99, 24.99)
  else if tld = "app" then some (19.99, 24.99)
  else none

/-- Name.com estimated pricing table, from `getNamecomEstimatedPricing`. -/
def namecomTable (tld : String) : Option (ℚ × ℚ) :=
  if tld = "com" then some (10.99, 12.99)
  else if tld = "net" then some (12.99, 14.99)
  else if tld = "org" then some (11.99, 13.99)
  else if tld = "info" then some (4.99, 18.99)
  else if tld = "biz" then some (4.99, 18.99)
  else if tld = "us" then some (8.99, 8.99)
  else if tld = "co" then some (29.99, 31.99)
  else if tld = "io" then some (49.99, 69.99)
  else if tld = "dev" then some (14.99, 19.99)
  else if tld = "app" then some (17.99, 22.99)
  else none

/-- Lookup wrapper shared by the five estimators: `pricing[tld || ''] ||
{ registration: null, renewal: null }`. -/
def estimatedPricing (table : String → Option (ℚ × ℚ)) (tld : Option String) :
    Option ℚ × Option ℚ :=
  match tld.bind table with
  | some (r, n) => (some r, some n)
  | none => (none, none)

/-- Quote built by `DomainPricingService.checkCloudflare`. -/
def checkCloudflare (domain : String) : DomainPricing :=
  let pricing := estimatedPricing cloudflareTable (tldOf domain)
  { provider := "Cloudflare", available := true,
    registrationPrice := pricing.1, renewalPrice := pricing.2, currency := "USD",
    url := "https://www.cloudflare.com/products/registrar/",
    error := if pricing.1 = none then some "TLD not supported" else none }

/-- Quote built by `DomainPricingService.checkNamecheap`. -/
def checkNamecheap (domain : String) : DomainPricing :=
  let pricing := estimatedPricing namecheapTable (tldOf domain)
  { provider := "Namecheap", available := true,
    registrationPrice := pricing.1, renewalPrice := pricing.2, currency := "USD",
    url := "https://www.namecheap.com/domains/registration/results/?domain=" ++ domain,
    error := if pricing.1 = none then some "TLD not supported" else none }

/-- Quote built by `DomainPricingService.checkPorkbun`. -/
def checkPorkbun (domain : String) : DomainPricing :=
  let pricing := estimatedPricing porkbunTable (tldOf domain)
  { provider := "Porkbun", available := true,
    registrationPrice := pricing.1, renewalPrice := pricing.2, currency := "USD",
    url := "https://porkbun.com/checkout/search?q=" ++ domain,
    error := if pricing.1 = none then some "TLD not supported" else none }

/-- Quote built by `DomainPricingService.checkGoDaddy`. -/
def checkGoDaddy (domain : String) : DomainPricing :=
  let pricing := estimatedPricing godaddyTable (tldOf domain)
  { provider := "GoDaddy", available := true,
    registrationPrice := pricing.1, renewalPrice := pricing.2, currency := "USD",
    url := "https://www.godaddy.com/domainsearch/find?checkAvail=1&domainToCheck=" ++ domain,
    error := if pricing.1 = none then some "TLD not supported" else none }

/-- Quote built by `DomainPricingService.checkNamecom`. -/
def checkNamecom (domain : String) : DomainPricing :=
  let pricing := estimatedPricing namecomTable (tldOf domain)
  { provider := "Name.com", available := true,
    registrationPrice := pricing.1, renewalPrice := pricing.2, currency := "USD",
    url := "https://www.name.com/domain/search/" ++ domain,
    error := if pricing.1 = none then some "TLD not supported" else none }

/-- Provider names in the fixed dispatch order of the `pricingPromises`
array and of the rejection fallback `providers` array. -/
def providerNames : List String :=
  ["Cloudflare", "Namecheap", "Porkbun", "GoDaddy", "Name.com"]

/-- The five provider calls, in the order the `pricingPromises` array lists
them. -/
def pricingCalls : List (String → DomainPricing) :=
  [checkCloudflare, checkNamecheap, checkPorkbun, checkGoDaddy, checkNamecom]

/-- Dispatch of the i-th provider call. -/
def pricingCall (i : Fin 5) : String → DomainPricing :=
  pricingCalls.get (Fin.cast (by decide) i)

/-- Settled value of slot `i` of the `Promise.allSettled` fan-in over the
five provider calls. `r = none` means the slot fulfilled (with the pure
value the provider call computes); `r = some m` means it rejected, where
`m` models `reason?.message` (`none` when the reason carries no usable
message), producing the fallback quote the source's else-branch builds. -/
def settleSlot (domain : String) (i : Fin 5) (r : Option (Option String)) : DomainPricing :=
  match r with
  | none => pricingCall i domain
  | some reasonMsg =>
    { provider := providerNames.getD i.val "", available := false,
      registrationPrice := none, renewalPrice := none, currency := "USD",
      url := "", error := some (reasonMsg.getD "Failed to check pricing") }

/-- Pricing array produced by mapping the settlement outcomes over the five
slots in dispatch order. -/
def settledPricing (domain : String) (rej : Fin 5 → Option (Option String)) :
    List DomainPricing :=
  List.ofFn (fun i : Fin 5 => settleSlot domain i (rej i))

/-- Result assembly of `DomainPricingService.checkAvailabilityAndPricing`,
with the availability probe's outcome and the per-provider settlement
outcomes passed explicitly; `now` models `new Date()` for `checkedAt`. -/
def checkAvailabilityAndPricing (now : Int) (domain : String)
    (isLikelyAvailable : Bool) (rej : Fin 5 → Option (Option String)) :
    DomainAvailabilityResult :=
  { domain := domain, isAvailable := isLikelyAvailable,
    pricing := if isLikelyAvailable then settledPricing domain rej else [],
    checkedAt := now }

/-! ## Orchestrator slot assignment (`domain-inspector.ts`) -/

/-- Configuration flags of `InspectionOptions` that decide the active
source list. -/
structure InspectionOptions where
  quick : Bool
  subdomains : Bool
  checkPricing : Bool
  verbose : Bool
deriving DecidableEq

/-- Field-presence view of a `DomainInfo` built by an orchestrator run, over
an arbitrary settled-value type `V`. The outer `Option` is JavaScript field
presence (`none` = the assignment statement never ran), the inner `Option V`
is the settled outcome the statement stored (`none` = the gather helper
returned `null`). -/
structure SlotAssignment (V : Type) where
  whois : Option (Option V)
  dns : Option (Option V)
  ssl : Option (Option V)
  network : Option (Option V)
  subdomains : Option (Option V)
  pricing : Option (Option V)
deriving DecidableEq

/-- Slot assignment of `DomainInspector.investigate` (single-domain path).
The promise array and the `resultIndex` walk are transcribed positionally:
a slot reads `results[resultIndex]` for the running index value, exactly as
the source does, so index/slot alignment is a proved property rather than
an assumption. -/
def investigate (V : Type) (o : InspectionOptions) (w d s n sub pr : Option V) :
    SlotAssignment V :=
  let results : List (Option V) :=
    [w, d, s] ++ (if o.quick then [] else [n]) ++
      (if o.subdomains then [sub] else []) ++
      (if o.checkPricing then [pr] else [])
  let whoisSlot := results.get? 0
  let dnsSlot := results.get? 1
  let sslSlot := results.get? 2
  let i3 := 3
  let networkSlot := if o.quick then none else results.get? i3
  let i4 := if o.quick then i3 else i3 + 1
  let subdomainsSlot := if o.subdomains then results.get? i4 else none
  let i5 := if o.subdomains then i4 + 1 else i4
  let pricingSlot := if o.checkPricing then results.get? i5 else none
  ⟨whoisSlot, dnsSlot, sslSlot, networkSlot, subdomainsSlot, pricingSlot⟩

/-- Slot assignment of `DomainInspector.investigateSingle` (per-domain step
of the multi-domain path). Its promise array has no pricing entry and no
statement ever assigns the pricing field. -/
def investigateSingle (V : Type) (o : InspectionOptions) (w d s n sub : Option V) :
    SlotAssignment V :=
  let results : List (Option V) :=
    [w, d, s] ++ (if o.quick then [] else [n]) ++
      (if o.subdomains then [sub] else [])
  let whoisSlot := results.get? 0
  let dnsSlot := results.get? 1
  let sslSlot := results.get? 2
  let i3 := 3
  let networkSlot := if o.quick then none else results.get? i3
  let i4 := if o.quick then i3 else i3 + 1
  let subdomainsSlot := if o.subdomains then results.get? i4 else none
  ⟨whoisSlot, dnsSlot, sslSlot, networkSlot, subdomainsSlot, none⟩

/-! ## Batch scheduler (`DomainInspector.investigateMultiple`) -/

/-- Observable scheduling events of the batch loop: dispatching one batch of
domains, and the fixed inter-batch pacing pause (`setTimeout(..., 1500)`). -/
inductive SchedEvent where
  | batch : List String → SchedEvent
  | delay : SchedEvent
deriving DecidableEq

/-- Body of the batching loop of `investigateMultiple`, recursing on an
iteration bound (`fuel`). For `i = 0, k, 2k, ...` the source dispatches
`domains.slice(i, i + k)` and pauses afterwards exactly when
`i + k < domains.length`; the loop runs at most `domains.length` iterations
when `0 < k`, so a fuel of the list length reproduces it exactly (the
congruence lemma below proves fuel-irrelevance). With `k = 0` the source
loop never terminates; that case is outside every claim's domain. -/
def schedLoop (k : Nat) : Nat → List String → List SchedEvent
  | _, [] => []
  | 0, _ :: _ => []
  | fuel + 1, d :: ds =>
    let rest := (d :: ds).drop k
    SchedEvent.batch ((d :: ds).take k) ::
      (if rest.isEmpty then [] else SchedEvent.delay :: schedLoop k fuel rest)

/-- Event trace of the batching loop of `DomainInspector.investigateMultiple`. -/
def investigateMultiple (k : Nat) (l : List String) : List SchedEvent :=
  schedLoop k l.length l

/-- Body of the specification-side chunking, with the same iteration bound. -/
def chunkLoop (k : Nat) : Nat → List String → List (List String)
  | _, [] => []
  | 0, _ :: _ => []
  | fuel + 1, d :: ds =>
    (d :: ds).take k :: chunkLoop k fuel ((d :: ds).drop k)

/-- Specification-side chunking: consecutive slices of size `k` in input
order, the last possibly smaller. -/
def chunksOf (k : Nat) (l : List String) : List (List String) :=
  chunkLoop k l.length l

/-! ## Specification-side definitions -/

/-- Validity of a pricing quote as the specification defines it: available,
error-free, and carrying a registration price. -/
def specValidQuote (p : DomainPricing) : Bool :=
  p.available && p.error.isNone && p.registrationPrice.isSome

/-- Threat rule 1 of the specification: certificate present with fewer than
30 days until expiry. -/
def ruleExpiryFinding (info : DomainInfo) : List String :=
  match info.ssl with
  | some ssl =>
    match ssl.daysUntilExpiry with
    | some d => if d < 30 then ["SSL expires in " ++ toString d ++ " days"] else []
    | none => []
  | none => []

/-- Threat rule 2 of the specification: no certificate present at all. -/
def ruleMissingCertFinding (info : DomainInfo) : List String :=
  match info.ssl with
  | none => ["No SSL certificate detected"]
  | some _ => []

/-- Threat rule of the specification for a recent registration: registration
date present and less than 30 days before `now`. -/
def ruleRecentRegistrationFinding (parseDate : String → Option Int) (now : Int)
    (info : DomainInfo) : List String :=
  match info.whois with
  | some w =>
    match w.registrationDate with
    | some rd =>
      match parseDate rd with
      | some t => if now - t < 30 * 86400000 then ["Domain registered recently"] else []
      | none => []
    | none => []
  | none => []

/-- Threat rule of the specification for an invalid certificate: certificate
present and explicitly marked invalid. -/
def ruleInvalidCertFinding (info : DomainInfo) : List String :=
  match info.ssl with
  | some ssl => if ssl.isValid = some false then ["Invalid SSL certificate"] else []
  | none => []

/-- Undoubling of quote pairs inside a quoted CSV field, the core of a
standard CSV reader's unescaping. -/
def collapseQuotes : List Char → List Char
  | [] => []
  | [c] => [c]
  | c :: d :: r =>
    if c = '"' ∧ d = '"' then '"' :: collapseQuotes r
    else c :: collapseQuotes (d :: r)

/-- Standard CSV field unescaping: a field wrapped in double quotes is
stripped of them and its doubled internal quotes are collapsed; any other
field is taken verbatim. -/
def unescapeCSVChars (s : List Char) : List Char :=
  match s with
  | c :: rest =>
    if c = '"' ∧ rest.getLast? = some '"' then collapseQuotes rest.dropLast else s
  | [] => s

/-! ## Concrete inputs used by witnesses and counterexamples -/

/-- A valid quote with registration price 10 and renewal price 12. -/
def qValidA : DomainPricing :=
  ⟨"A", true, some 10, some 12, "USD", "https://a.example", none⟩

/-- An unavailable quote, as a provider rejection produces. -/
def qUnavailable : DomainPricing :=
  ⟨"X", false, some 9, none, "USD", "", some "Failed to check pricing"⟩

/-- An available, priced quote carrying the scraping error annotation the
source attaches to live-scraped Namecheap/Name.com quotes. -/
def qErrB : DomainPricing :=
  ⟨"B", true, some 8, none, "USD", "https://b.example", some "Live pricing via web scraping"⟩

/-- An error-annotated but available and priced quote, alone in a quote set. -/
def qErrOnly : DomainPricing :=
  ⟨"Namecheap", true, some 8, none, "USD", "", some "Live pricing via web scraping"⟩

/-- A valid quote whose renewal price is the (falsy) number 0. -/
def qZeroRenewal : DomainPricing :=
  ⟨"A", true, some 10, some 0, "USD", "https://a.example", none⟩

/-- A valid quote with renewal price 5. -/
def qFiveRenewal : DomainPricing :=
  ⟨"B", true, some 8, some 5, "USD", "https://b.example", none⟩

/-- Date parser stub that reads every date string as the epoch. -/
def parseDateEpoch : String → Option Int := fun _ => some 0

/-- Report with a valid-dated recent registration and a present certificate
that is marked invalid but far from expiry. -/
def infoRecentInvalid : DomainInfo :=
  { domain := "example.test",
    whois := some { registrar := none, registrationDate := some "2025-01-01",
                    expirationDate := none, nameServers := none,
                    registrantCountry := none, status := none },
    dns := none,
    ssl := some { issuer := none, subject := none, validFrom := none, validTo := none,
                  fingerprint := none, serialNumber := none, signatureAlgorithm := none,
                  keySize := none, isValid := some false, daysUntilExpiry := some 100 },
    security := none, network := none, subdomains := none, pricing := none }

/-- Seven domain names, for the batch-shape witness. -/
def domains7 : List String := ["d1", "d2", "d3", "d4", "d5", "d6", "d7"]

/-- Settlement outcomes where only the third provider call (Porkbun's slot)
rejects, with reason message "boom". -/
def rejThird : Fin 5 → Option (Option String) :=
  fun i => if i.val = 2 then some (some "boom") else none

/-! ## Helper lemmas -/

theorem collapseQuotes_cons_ne {c : Char} (r : List Char) (hc : c ≠ '"') :
    collapseQuotes (c :: r) = c :: collapseQuotes r := by
  cases r with
  | nil => rfl
  | cons d t => simp [collapseQuotes, hc]

theorem doubleQuotesIn_cons (c : Char) (t : List Char) :
    doubleQuotesIn (c :: t) = (if c = '"' then ['"', '"'] else [c]) ++ doubleQuotesIn t := by
  simp [doubleQuotesIn]

theorem collapseQuotes_doubleQuotesIn (s : List Char) :
    collapseQuotes (doubleQuotesIn s) = s := by
  induction s with
  | nil => rfl
  | cons c t ih =>
    rw [doubleQuotesIn_cons]
    by_cases hc : c = '"'
    · subst hc
      rw [if_pos rfl]
      show collapseQuotes ('"' :: '"' :: doubleQuotesIn t) = '"' :: t
      simp [collapseQuotes, ih]
    · rw [if_neg hc]
      show collapseQuotes (c :: doubleQuotesIn t) = c :: t
      rw [collapseQuotes_cons_ne _ hc, ih]

theorem unescape_escape (s : List Char) :
    unescapeCSVChars (escapeCSVChars s) = s := by
  by_cases hnil : s = []
  · subst hnil; rfl
  · by_cases hq : needsQuoting s = true
    · have he : escapeCSVChars s = '"' :: (doubleQuotesIn s ++ ['"']) := by
        simp [escapeCSVChars, hnil, hq]
      rw [he]
      show (if ('"' : Char) = '"' ∧ (doubleQuotesIn s ++ ['"']).getLast? = some '"'
            then collapseQuotes (doubleQuotesIn s ++ ['"']).dropLast
            else '"' :: (doubleQuotesIn s ++ ['"'])) = s
      rw [if_pos ⟨rfl, by simp⟩, List.dropLast_concat, collapseQuotes_doubleQuotesIn]
    · have he : escapeCSVChars s = s := by
        simp [escapeCSVChars, hnil, hq]
      rw [he]
      obtain ⟨c, t, rfl⟩ := List.exists_cons_of_ne_nil hnil
      have hc : c ≠ '"' := by
        intro h
        subst h
        simp [needsQuoting] at hq
      show (if c = '"' ∧ t.getLast? = some '"'
            then collapseQuotes t.dropLast else c :: t) = c :: t
      rw [if_neg (fun h => hc h.1)]

theorem addDomain_length (parseDate : String → Option Int) (now : Int) :
    ∀ (l : List DomainInfo) (st : List String),
      (l.foldl (addDomain parseDate now) st).length = st.length + l.length := by
  intro l
  induction l with
  | nil => intro st; simp
  | cons i t ih =>
    intro st
    show ((t.foldl (addDomain parseDate now) (addDomain parseDate now st i))).length = _
    rw [ih]
    simp [addDomain]
    omega

/-! ## Claim theorems -/

/-- C1: the claim states that in both the single-domain path (`investigate`)
and the multi-domain path (`investigateSingle`) the populated slot set is
exactly the active source set, with pricing a slot iff `checkPricing`. The
whois/dns/ssl/network/subdomains part holds in both paths for every
configuration and settlement outcome, and `investigate` also populates the
pricing slot iff `checkPricing`; but `investigateSingle` never populates the
pricing slot, whatever the configuration — its promise array has no pricing
entry — so the claim fails on the multi-domain path when `checkPricing` is
set, even though the multi-domain driver and `investigateSingle` itself
contain pricing-export code that expects the slot. -/
theorem c1_slot_assignment (V : Type) (o : InspectionOptions) (w d s n sub pr : Option V) :
    investigate V o w d s n sub pr =
      ⟨some w, some d, some s,
       if o.quick then none else some n,
       if o.subdomains then some sub else none,
       if o.checkPricing then some pr else none⟩ ∧
    investigateSingle V o w d s n sub =
      ⟨some w, some d, some s,
       if o.quick then none else some n,
       if o.subdomains then some sub else none,
       none⟩ := by
  obtain ⟨q, sd, cp, vb⟩ := o
  cases q <;> cases sd <;> cases cp <;> exact ⟨rfl, rfl⟩

/-- C3 counterexample: at a report whose certificate is present, far from
expiry and marked invalid, and whose registration is recent, the findings
list the code produces is ["Domain registered recently", "Invalid SSL
certificate"] — the recent-registration finding precedes the invalid-SSL
finding, contradicting the claim's rule order, which demands the
invalid-SSL finding (rule 3) before the recent-registration finding
(rule 4). -/
theorem c3_counterexample :
    assessThreats parseDateEpoch 86400000 infoRecentInvalid =
      ["Domain registered recently", "Invalid SSL certificate"] ∧
    (["Domain registered recently", "Invalid SSL certificate"] : List String) ≠
      ["Invalid SSL certificate", "Domain registered recently"] :=
  ⟨rfl, by decide⟩

/-- C3 (amended): every applicable rule contributes its finding, but the
evaluation order of `assessThreats` is (1) certificate expiring within 30
days, (2) no certificate, (3) recent registration, (4) invalid certificate
— the last two rules are evaluated in the opposite order to the claim. -/
theorem c3_amended_rule_order (parseDate : String → Option Int) (now : Int) (info : DomainInfo) :
    assessThreats parseDate now info =
      ruleExpiryFinding info ++ ruleMissingCertFinding info ++
        ruleRecentRegistrationFinding parseDate now info ++ ruleInvalidCertFinding info := by
  obtain ⟨dom, whois, dns, ssl, sec, nw, sd, pr⟩ := info
  cases whois <;> cases ssl <;> rfl

/-- C4: the derived threat level is LOW on an empty findings list, HIGH
exactly when some finding contains "Invalid SSL" or "No SSL", otherwise
MEDIUM exactly when some finding contains "expires", and LOW otherwise. -/
theorem c4_threat_level_characterization (ts : List String) :
    (getThreatLevel ts = "HIGH" ↔
      ∃ t ∈ ts, strIncludes t "Invalid SSL" = true ∨ strIncludes t "No SSL" = true) ∧
    (getThreatLevel ts = "MEDIUM" ↔
      (¬(∃ t ∈ ts, strIncludes t "Invalid SSL" = true ∨ strIncludes t "No SSL" = true) ∧
        ∃ t ∈ ts, strIncludes t "expires" = true)) ∧
    (getThreatLevel ts = "LOW" ↔
      (¬(∃ t ∈ ts, strIncludes t "Invalid SSL" = true ∨ strIncludes t "No SSL" = true) ∧
        ¬(∃ t ∈ ts, strIncludes t "expires" = true))) := by
  have hHM : ("HIGH" : String) ≠ "MEDIUM" := by decide
  have hHL : ("HIGH" : String) ≠ "LOW" := by decide
  have hML : ("MEDIUM" : String) ≠ "LOW" := by decide
  have h1 : (ts.any (fun t => strIncludes t "Invalid SSL" || strIncludes t "No SSL") = true) ↔
      (∃ t ∈ ts, strIncludes t "Invalid SSL" = true ∨ strIncludes t "No SSL" = true) := by
    simp [List.any_eq_true]
  have h2 : (ts.any (fun t => strIncludes t "expires") = true) ↔
      (∃ t ∈ ts, strIncludes t "expires" = true) := by
    simp [List.any_eq_true]
  rw [← h1, ← h2]
  unfold getThreatLevel
  cases he : ts.isEmpty with
  | true =>
    have hts : ts = [] := by
      cases ts with
      | nil => rfl
      | cons a t => simp [List.isEmpty] at he
    subst hts
    simp [hHM.symm, hHL.symm, hML.symm]
  | false =>
    simp only [Bool.false_eq_true, if_false]
    cases ha : ts.any (fun t => strIncludes t "Invalid SSL" || strIncludes t "No SSL") <;>
      cases hb : ts.any (fun t => strIncludes t "expires") <;>
        simp [hHM, hHL, hML, hHM.symm, hHL.symm, hML.symm]

/-- C6: after any sequence of `addDomain` calls on a fresh CSV export sink,
the exported row count excluding the header equals the number of calls,
whatever fields of each added report are absent. -/
theorem c6_csv_row_count (parseDate : String → Option Int) (now : Int)
    (infos : List DomainInfo) :
    getRowCount (infos.foldl (addDomain parseDate now) initCsvData) = infos.length := by
  rw [getRowCount, addDomain_length]
  simp [initCsvData]

/-- C8: `escapeCSV` wraps a value in double quotes with internal quotes
doubled exactly when the value contains a comma, a double quote or a
newline, and leaves it unchanged otherwise; standard CSV unescaping of the
escaped output recovers the original string for every value; and the input
Acme, Inc." is escaped to "Acme, Inc.""" . -/
theorem c8_csv_escaping_roundtrip :
    (∀ s : List Char, escapeCSVChars s =
      if needsQuoting s then '"' :: (doubleQuotesIn s ++ ['"']) else s) ∧
    (∀ s : List Char, unescapeCSVChars (escapeCSVChars s) = s) ∧
    escapeCSV "Acme, Inc.\"" = "\"Acme, Inc.\"\"\"" := by
  refine ⟨?_, unescape_escape, by decide⟩
  intro s
  by_cases hnil : s = []
  · subst hnil; rfl
  · by_cases hq : needsQuoting s = true <;> simp [escapeCSVChars, hnil, hq]

theorem foldl_min_le_init {α : Type} (f : α → WithTop ℚ) :
    ∀ (t : List α) (a : WithTop ℚ), t.foldl (fun acc y => min acc (f y)) a ≤ a := by
  intro t
  induction t with
  | nil => intro a; exact le_refl a
  | cons x r ih =>
    intro a
    calc (x :: r).foldl (fun acc y => min acc (f y)) a
        = r.foldl (fun acc y => min acc (f y)) (min a (f x)) := rfl
      _ ≤ min a (f x) := ih _
      _ ≤ a := min_le_left _ _

theorem minKeyBy_le_init {α : Type} (f : α → WithTop ℚ) (q0 : α) (qs : List α) :
    minKeyBy f q0 qs ≤ f q0 :=
  foldl_min_le_init f qs (f q0)

theorem findq_cons_true {α : Type} (p : α → Bool) (a : α) (l : List α) (h : p a = true) :
    List.find? p (a :: l) = some a := by
  simp [List.find?, h]

theorem findq_cons_false {α : Type} (p : α → Bool) (a : α) (l : List α) (h : p a = false) :
    List.find? p (a :: l) = List.find? p l := by
  simp [List.find?, h]

theorem find_min_eq_cheapestBy {α : Type} (f : α → WithTop ℚ) :
    ∀ (qs : List α) (q0 : α),
      (q0 :: qs).find? (fun p => decide (f p = minKeyBy f q0 qs)) =
        some (cheapestBy f q0 qs) := by
  intro qs
  induction qs with
  | nil =>
    intro q0
    show List.find? (fun p => decide (f p = f q0)) [q0] = some q0
    exact findq_cons_true _ _ _ (by simp)
  | cons x t ih =>
    intro q0
    by_cases h : f x < f q0
    · have hM : minKeyBy f q0 (x :: t) = minKeyBy f x t := by
        show t.foldl _ (min (f q0) (f x)) = t.foldl _ (f x)
        rw [min_eq_right (le_of_lt h)]
      have hC : cheapestBy f q0 (x :: t) = cheapestBy f x t := by
        show cheapestBy f (if f x < f q0 then x else q0) t = _
        rw [if_pos h]
      have hne : decide (f q0 = minKeyBy f x t) = false := by
        simp only [decide_eq_false_iff_not]
        intro he
        have hle : minKeyBy f x t ≤ f x := minKeyBy_le_init f x t
        rw [← he] at hle
        exact absurd h (not_lt.mpr hle)
      rw [hM, hC]
      have hstep : List.find? (fun p => decide (f p = minKeyBy f x t)) (q0 :: x :: t) =
          List.find? (fun p => decide (f p = minKeyBy f x t)) (x :: t) :=
        findq_cons_false _ _ _ hne
      rw [hstep]
      exact ih x
    · have hq0x : f q0 ≤ f x := le_of_not_lt h
      have hM : minKeyBy f q0 (x :: t) = minKeyBy f q0 t := by
        show t.foldl _ (min (f q0) (f x)) = t.foldl _ (f q0)
        rw [min_eq_left hq0x]
      have hC : cheapestBy f q0 (x :: t) = cheapestBy f q0 t := by
        show cheapestBy f (if f x < f q0 then x else q0) t = _
        rw [if_neg h]
      rw [hM, hC]
      by_cases hq : f q0 = minKeyBy f q0 t
      · have h1 : List.find? (fun p => decide (f p = minKeyBy f q0 t)) (q0 :: x :: t) = some q0 :=
          findq_cons_true _ _ _ (by simp [hq])
        have h2 : List.find? (fun p => decide (f p = minKeyBy f q0 t)) (q0 :: t) = some q0 :=
          findq_cons_true _ _ _ (by simp [hq])
        have h3 := (ih q0).symm.trans h2
        rw [h1, ← h3]
      · have hMle : minKeyBy f q0 t ≤ f q0 := minKeyBy_le_init f q0 t
        have hxne : decide (f x = minKeyBy f q0 t) = false := by
          simp only [decide_eq_false_iff_not]
          intro he
          exact hq (le_antisymm (he ▸ hq0x) hMle)
        have h1 : List.find? (fun p => decide (f p = minKeyBy f q0 t)) (q0 :: x :: t) =
            List.find? (fun p => decide (f p = minKeyBy f q0 t)) (x :: t) :=
          findq_cons_false _ _ _ (by simp [hq])
        have h2 : List.find? (fun p => decide (f p = minKeyBy f q0 t)) (x :: t) =
            List.find? (fun p => decide (f p = minKeyBy f q0 t)) t :=
          findq_cons_false _ _ _ hxne
        have h3 : List.find? (fun p => decide (f p = minKeyBy f q0 t)) (q0 :: t) =
            List.find? (fun p => decide (f p = minKeyBy f q0 t)) t :=
          findq_cons_false _ _ _ (by simp [hq])
        rw [h1, h2, ← h3]
        exact ih q0

/-- C5 counterexample: on the valid-quote list [A with renewal price 0, B
with renewal price 5], the minimum renewal price 0 is attained by A, yet the
source's reduce — whose key is `renewalPrice || Infinity`, so the falsy
price 0 becomes `Infinity` — selects B, and `analyzePricing` publishes B as
the cheapest renewal. This refutes the claim that the selection always
picks the quote with the minimum price on the axis. -/
theorem c5_counterexample :
    (cheapestBy (fun p => jsPriceKey p.renewalPrice) qZeroRenewal [qFiveRenewal]).provider = "B" ∧
    qZeroRenewal.renewalPrice = some 0 ∧ qFiveRenewal.renewalPrice = some 5 ∧ ((0 : ℚ) < 5) ∧
    [qZeroRenewal, qFiveRenewal].filter codeValidQuote = [qZeroRenewal, qFiveRenewal] ∧
    (analyzePricing [qZeroRenewal, qFiveRenewal]).cheapestRenewal =
      some { provider := "B", price := some 5, currency := "USD" } := by
  refine ⟨by decide, rfl, rfl, by norm_num, by decide, by decide⟩

/-- C5 (amended): for every non-empty valid-quote list, the
cheapest-registration and cheapest-renewal reduces return exactly the first
quote (in input order) whose axis key equals the minimum axis key of the
list, where the axis key is the quote's price on that axis with an absent
or zero price counting as positive infinity — a deterministic, stable
choice that breaks ties in favour of the earlier quote. -/
theorem c5_cheapest_stable_minimum (q : DomainPricing) (qs : List DomainPricing) :
    (q :: qs).find? (fun p => decide (jsPriceKey p.registrationPrice =
        minKeyBy (fun x => jsPriceKey x.registrationPrice) q qs)) =
      some (cheapestBy (fun x => jsPriceKey x.registrationPrice) q qs) ∧
    (q :: qs).find? (fun p => decide (jsPriceKey p.renewalPrice =
        minKeyBy (fun x => jsPriceKey x.renewalPrice) q qs)) =
      some (cheapestBy (fun x => jsPriceKey x.renewalPrice) q qs) :=
  ⟨find_min_eq_cheapestBy _ qs q, find_min_eq_cheapestBy _ qs q⟩

/-- C2 counterexample: the quote B is available, priced, and carries the
error annotation "Live pricing via web scraping", yet `analyzePricing`
lets it participate in — and win — the cheapest-registration comparison,
refuting the claim that every error-annotated quote is excluded. -/
theorem c2_counterexample :
    (analyzePricing [qValidA, qErrB]).cheapestRegistration =
      some { provider := "B", price := some 8, currency := "USD" } ∧
    qErrB.error = some "Live pricing via web scraping" ∧
    (analyzePricing [qValidA, qErrB]).providerCount = 2 := by
  refine ⟨by decide, rfl, by decide⟩

/-- C2 (amended): a quote participates in the price comparison iff it is
available and carries a present, nonzero registration price; the error
annotation plays no role. The analysis is a function of the sublist passing
that filter alone, and its valid-quote count is exactly that sublist's
length. -/
theorem c2_participation_filter :
    (∀ l₁ l₂ : List DomainPricing, l₁.filter codeValidQuote = l₂.filter codeValidQuote →
      analyzePricing l₁ = analyzePricing l₂) ∧
    (∀ l : List DomainPricing,
      (analyzePricing l).providerCount = (l.filter codeValidQuote).length) := by
  constructor
  · intro l₁ l₂ h
    unfold analyzePricing
    rw [h]
  · intro l
    unfold analyzePricing
    cases hl : l.filter codeValidQuote with
    | nil => rfl
    | cons q qs => rfl

/-- C2 witness: instantiating the amended theorem on the concrete lists
[A, X] and [A], whose filtered sublists agree (X is unavailable), yields
equal analyses with valid-quote count 1. -/
theorem c2_witness :
    analyzePricing [qValidA, qUnavailable] = analyzePricing [qValidA] ∧
    (analyzePricing [qValidA, qUnavailable]).providerCount = 1 := by
  constructor
  · exact c2_participation_filter.1 [qValidA, qUnavailable] [qValidA] (by decide)
  · rw [c2_participation_filter.2 [qValidA, qUnavailable]]
    decide

/-- C9 counterexample: the singleton quote set whose only quote is
available and priced but error-annotated has an empty valid subset under
the specification's validity (available, error-free, priced), yet
`analyzePricing` does not return the unavailable record: it reports one
participating provider and a computed cheapest registration. -/
theorem c9_counterexample :
    [qErrOnly].filter specValidQuote = [] ∧
    (analyzePricing [qErrOnly]).providerCount = 1 ∧
    (analyzePricing [qErrOnly]).cheapestRegistration ≠ none := by
  refine ⟨by decide, by decide, by decide⟩

/-- C9 (amended): whenever the subset of quotes that are available with a
present, nonzero registration price (the code's validity — the error field
is ignored) is empty, `analyzePricing` returns the unavailable record: no
cheapest registration, no cheapest renewal, no price range, no averages,
and a valid-quote count of zero. -/
theorem c9_empty_valid_unavailable (l : List DomainPricing)
    (h : l.filter codeValidQuote = []) :
    (analyzePricing l).cheapestRegistration = none ∧
    (analyzePricing l).cheapestRenewal = none ∧
    (analyzePricing l).priceRange = none ∧
    (analyzePricing l).avgRegistrationPrice = none ∧
    (analyzePricing l).avgRenewalPrice = none ∧
    (analyzePricing l).providerCount = 0 := by
  unfold analyzePricing
  rw [h]
  exact ⟨rfl, rfl, rfl, rfl, rfl, rfl⟩

/-- C9 witness: the singleton list holding one unavailable quote has an
empty code-valid subset, and the amended theorem applied there yields the
unavailable record. -/
theorem c9_witness :
    [qUnavailable].filter codeValidQuote = [] ∧
    (analyzePricing [qUnavailable]).cheapestRegistration = none ∧
    (analyzePricing [qUnavailable]).providerCount = 0 :=
  ⟨by decide, (c9_empty_valid_unavailable [qUnavailable] (by decide)).1,
   (c9_empty_valid_unavailable [qUnavailable] (by decide)).2.2.2.2.2⟩

theorem chunkLoop_fuel (k : Nat) (hk : 0 < k) :
    ∀ (f₁ f₂ : Nat) (l : List String), l.length ≤ f₁ → l.length ≤ f₂ →
      chunkLoop k f₁ l = chunkLoop k f₂ l := by
  intro f₁
  induction f₁ with
  | zero =>
    intro f₂ l h1 h2
    have hl : l = [] := List.eq_nil_of_length_eq_zero (Nat.le_zero.mp h1)
    subst hl
    cases f₂ <;> rfl
  | succ f ih =>
    intro f₂ l h1 h2
    cases l with
    | nil => cases f₂ <;> rfl
    | cons d ds =>
      cases f₂ with
      | zero => simp at h2
      | succ g =>
        show (d :: ds).take k :: chunkLoop k f ((d :: ds).drop k) =
             (d :: ds).take k :: chunkLoop k g ((d :: ds).drop k)
        congr 1
        apply ih
        · simp only [List.length_drop, List.length_cons]
          simp only [List.length_cons] at h1
          omega
        · simp only [List.length_drop, List.length_cons]
          simp only [List.length_cons] at h2
          omega

theorem chunksOf_cons (k : Nat) (hk : 0 < k) (d : String) (ds : List String) :
    chunksOf k (d :: ds) = (d :: ds).take k :: chunksOf k ((d :: ds).drop k) := by
  show chunkLoop k (ds.length + 1) (d :: ds) = _
  show (d :: ds).take k :: chunkLoop k ds.length ((d :: ds).drop k) =
       (d :: ds).take k :: chunkLoop k ((d :: ds).drop k).length ((d :: ds).drop k)
  congr 1
  apply chunkLoop_fuel k hk
  · simp only [List.length_drop, List.length_cons]
    omega
  · exact le_refl _

theorem schedLoop_fuel (k : Nat) (hk : 0 < k) :
    ∀ (f₁ f₂ : Nat) (l : List String), l.length ≤ f₁ → l.length ≤ f₂ →
      schedLoop k f₁ l = schedLoop k f₂ l := by
  intro f₁
  induction f₁ with
  | zero =>
    intro f₂ l h1 h2
    have hl : l = [] := List.eq_nil_of_length_eq_zero (Nat.le_zero.mp h1)
    subst hl
    cases f₂ <;> rfl
  | succ f ih =>
    intro f₂ l h1 h2
    cases l with
    | nil => cases f₂ <;> rfl
    | cons d ds =>
      cases f₂ with
      | zero => simp at h2
      | succ g =>
        show SchedEvent.batch ((d :: ds).take k) ::
               (if ((d :: ds).drop k).isEmpty then []
                else SchedEvent.delay :: schedLoop k f ((d :: ds).drop k)) =
             SchedEvent.batch ((d :: ds).take k) ::
               (if ((d :: ds).drop k).isEmpty then []
                else SchedEvent.delay :: schedLoop k g ((d :: ds).drop k))
        congr 1
        by_cases hr : ((d :: ds).drop k).isEmpty
        · rw [if_pos hr, if_pos hr]
        · rw [if_neg hr, if_neg hr]
          congr 1
          apply ih
          · simp only [List.length_drop, List.length_cons]
            simp only [List.length_cons] at h1
            omega
          · simp only [List.length_drop, List.length_cons]
            simp only [List.length_cons] at h2
            omega

theorem investigateMultiple_cons (k : Nat) (hk : 0 < k) (d : String) (ds : List String) :
    investigateMultiple k (d :: ds) =
      SchedEvent.batch ((d :: ds).take k) ::
        (if ((d :: ds).drop k).isEmpty then []
         else SchedEvent.delay :: investigateMultiple k ((d :: ds).drop k)) := by
  show schedLoop k (ds.length + 1) (d :: ds) = _
  show SchedEvent.batch ((d :: ds).take k) ::
         (if ((d :: ds).drop k).isEmpty then []
          else SchedEvent.delay :: schedLoop k ds.length ((d :: ds).drop k)) = _
  congr 1
  by_cases hr : ((d :: ds).drop k).isEmpty
  · rw [if_pos hr, if_pos hr]
  · rw [if_neg hr, if_neg hr]
    congr 1
    apply schedLoop_fuel k hk
    · simp only [List.length_drop, List.length_cons]
      omega
    · exact le_refl _

theorem chunksOf_flatten (k : Nat) (hk : 0 < k) (l : List String) :
    (chunksOf k l).flatten = l := by
  have main : ∀ (n : Nat) (l : List String), l.length ≤ n → (chunksOf k l).flatten = l := by
    intro n
    induction n with
    | zero =>
      intro l hl
      have hnil : l = [] := List.eq_nil_of_length_eq_zero (Nat.le_zero.mp hl)
      subst hnil
      rfl
    | succ n ih =>
      intro l hl
      cases l with
      | nil => rfl
      | cons d ds =>
        rw [chunksOf_cons k hk]
        show ((d :: ds).take k) ++ (chunksOf k ((d :: ds).drop k)).flatten = d :: ds
        rw [ih ((d :: ds).drop k) (by
          simp only [List.length_drop, List.length_cons]
          simp only [List.length_cons] at hl
          omega)]
        exact List.take_append_drop k (d :: ds)
  exact main l.length l (le_refl _)

theorem chunksOf_length (k : Nat) (hk : 0 < k) (l : List String) :
    (chunksOf k l).length = (l.length + k - 1) / k := by
  have hnilcase : (0 : Nat) = (0 + k - 1) / k := by
    rw [Nat.div_eq_of_lt (by omega)]
  have main : ∀ (n : Nat) (l : List String), l.length ≤ n →
      (chunksOf k l).length = (l.length + k - 1) / k := by
    intro n
    induction n with
    | zero =>
      intro l hl
      have hnil : l = [] := List.eq_nil_of_length_eq_zero (Nat.le_zero.mp hl)
      subst hnil
      exact hnilcase
    | succ n ih =>
      intro l hl
      cases l with
      | nil => exact hnilcase
      | cons d ds =>
        rw [chunksOf_cons k hk]
        show (chunksOf k ((d :: ds).drop k)).length + 1 = ((d :: ds).length + k - 1) / k
        rw [ih ((d :: ds).drop k) (by
          simp only [List.length_drop, List.length_cons]
          simp only [List.length_cons] at hl
          omega)]
        simp only [List.length_drop, List.length_cons]
        by_cases hsmall : ds.length + 1 ≤ k
        · have e1 : ds.length + 1 - k = 0 := by omega
          have e2 : (0 : Nat) + k - 1 = k - 1 := by omega
          have e3 : ds.length + 1 + k - 1 = ds.length + k := by omega
          rw [e1, e2, e3, Nat.div_eq_of_lt (show k - 1 < k by omega),
            Nat.add_div_right _ hk, Nat.div_eq_of_lt (show ds.length < k by omega)]
        · have e1 : ds.length + 1 - k + k - 1 = ds.length := by omega
          have e2 : ds.length + 1 + k - 1 = ds.length + k := by omega
          rw [e1, e2, Nat.add_div_right _ hk]
  exact main l.length l (le_refl _)

theorem chunksOf_sizes (k : Nat) (hk : 0 < k) (l : List String) :
    ∀ c ∈ chunksOf k l, c ≠ [] ∧ c.length ≤ k := by
  have main : ∀ (n : Nat) (l : List String), l.length ≤ n →
      ∀ c ∈ chunksOf k l, c ≠ [] ∧ c.length ≤ k := by
    intro n
    induction n with
    | zero =>
      intro l hl
      have hnil : l = [] := List.eq_nil_of_length_eq_zero (Nat.le_zero.mp hl)
      subst hnil
      intro c hc
      exact absurd hc (List.not_mem_nil c)
    | succ n ih =>
      intro l hl
      cases l with
      | nil => intro c hc; exact absurd hc (List.not_mem_nil c)
      | cons d ds =>
        rw [chunksOf_cons k hk]
        intro c hc
        rcases List.mem_cons.mp hc with rfl | hmem
        · constructor
          · obtain ⟨k', rfl⟩ : ∃ k', k = k' + 1 := ⟨k - 1, by omega⟩
            simp [List.take_succ_cons]
          · simp only [List.length_take]
            exact min_le_left _ _
        · exact ih ((d :: ds).drop k) (by
            simp only [List.length_drop, List.length_cons]
            simp only [List.length_cons] at hl
            omega) c hmem
  exact main l.length l (le_refl _)

theorem chunksOf_dropLast_sizes (k : Nat) (hk : 0 < k) (l : List String) :
    ∀ c ∈ (chunksOf k l).dropLast, c.length = k := by
  have main : ∀ (n : Nat) (l : List String), l.length ≤ n →
      ∀ c ∈ (chunksOf k l).dropLast, c.length = k := by
    intro n
    induction n with
    | zero =>
      intro l hl
      have hnil : l = [] := List.eq_nil_of_length_eq_zero (Nat.le_zero.mp hl)
      subst hnil
      intro c hc
      exact absurd hc (List.not_mem_nil c)
    | succ n ih =>
      intro l hl
      cases l with
      | nil => intro c hc; exact absurd hc (List.not_mem_nil c)
      | cons d ds =>
        rw [chunksOf_cons k hk]
        cases hdrop : (d :: ds).drop k with
        | nil =>
          intro c hc
          exact absurd hc (List.not_mem_nil c)
        | cons e es =>
          have hklen : k < (d :: ds).length := by
            have hlen := congrArg List.length hdrop
            simp only [List.length_drop, List.length_cons] at hlen
            simp only [List.length_cons]
            omega
          have hcc := chunksOf_cons k hk e es
          rw [hcc]
          show ∀ c ∈ ((d :: ds).take k ::
              ((e :: es).take k :: chunksOf k ((e :: es).drop k))).dropLast, c.length = k
          intro c hc
          have hc2 : c ∈ (d :: ds).take k ::
              ((e :: es).take k :: chunksOf k ((e :: es).drop k)).dropLast := hc
          rcases List.mem_cons.mp hc2 with rfl | hmem
          · simp only [List.length_take, List.length_cons]
            simp only [List.length_cons] at hklen
            omega
          · rw [← hcc] at hmem
            refine ih (e :: es) (by
              have hlen := congrArg List.length hdrop
              simp only [List.length_drop, List.length_cons] at hlen
              simp only [List.length_cons] at hl ⊢
              omega) c hmem
  exact main l.length l (le_refl _)

theorem investigateMultiple_eq_intersperse (k : Nat) (hk : 0 < k) (l : List String) :
    investigateMultiple k l =
      List.intersperse SchedEvent.delay ((chunksOf k l).map SchedEvent.batch) := by
  have main : ∀ (n : Nat) (l : List String), l.length ≤ n →
      investigateMultiple k l =
        List.intersperse SchedEvent.delay ((chunksOf k l).map SchedEvent.batch) := by
    intro n
    induction n with
    | zero =>
      intro l hl
      have hnil : l = [] := List.eq_nil_of_length_eq_zero (Nat.le_zero.mp hl)
      subst hnil
      rfl
    | succ n ih =>
      intro l hl
      cases l with
      | nil => rfl
      | cons d ds =>
        rw [investigateMultiple_cons k hk, chunksOf_cons k hk]
        cases hdrop : (d :: ds).drop k with
        | nil =>
          have hemp : (([] : List String)).isEmpty = true := rfl
          rw [if_pos hemp]
          rfl
        | cons e es =>
          rw [if_neg (by simp)]
          rw [ih (e :: es) (by
            have hlen := congrArg List.length hdrop
            simp only [List.length_drop, List.length_cons] at hlen
            simp only [List.length_cons] at hl
            simp only [List.length_cons]
            omega)]
          have hcc := chunksOf_cons k hk e es
          rw [hcc]
          rfl
  exact main l.length l (le_refl _)

/-- C7: for every concurrency limit k > 0, the batch loop's trace is the
chunked input with the pacing delay interspersed strictly between
consecutive batches (so no delay after the final batch); the chunks
concatenate back to the input in order, there are exactly ceil(n/k) of
them, every chunk before the last has size exactly k, and every chunk is
non-empty of size at most k. -/
theorem c7_batch_partition (k : Nat) (l : List String) (hk : 0 < k) :
    investigateMultiple k l =
      List.intersperse SchedEvent.delay ((chunksOf k l).map SchedEvent.batch) ∧
    (chunksOf k l).flatten = l ∧
    (chunksOf k l).length = (l.length + k - 1) / k ∧
    (∀ c ∈ (chunksOf k l).dropLast, c.length = k) ∧
    (∀ c ∈ chunksOf k l, c ≠ [] ∧ c.length ≤ k) :=
  ⟨investigateMultiple_eq_intersperse k hk l, chunksOf_flatten k hk l,
   chunksOf_length k hk l, chunksOf_dropLast_sizes k hk l, chunksOf_sizes k hk l⟩

/-- C7 witness: seven domains with limit 3 form the batches
[d1 d2 d3], [d4 d5 d6], [d7] — ceil(7/3) = 3 of them — and the trace
places the delay between consecutive batches only. -/
theorem c7_witness :
    (0 < 3) ∧
    chunksOf 3 domains7 = [["d1", "d2", "d3"], ["d4", "d5", "d6"], ["d7"]] ∧
    investigateMultiple 3 domains7 =
      List.intersperse SchedEvent.delay ((chunksOf 3 domains7).map SchedEvent.batch) ∧
    (chunksOf 3 domains7).length = (domains7.length + 3 - 1) / 3 :=
  ⟨by decide, by decide, (c7_batch_partition 3 domains7 (by decide)).1,
   (c7_batch_partition 3 domains7 (by decide)).2.2.1⟩

theorem settleSlot_provider (domain : String) (i : Fin 5) (r : Option (Option String)) :
    (settleSlot domain i r).provider = providerNames.getD i.val "" := by
  cases r with
  | none =>
    show (pricingCall i domain).provider = providerNames.getD i.val ""
    fin_cases i <;> rfl
  | some m => rfl

/-- C10: the pricing fan-out result reports the availability outcome it was
given; when the domain is not available the pricing array is empty; and
when it is available the array holds exactly five quotes whose provider
column is the fixed list Cloudflare, Namecheap, Porkbun, GoDaddy, Name.com
in dispatch order, with every rejected provider call replaced, in its own
slot, by an error-annotated unavailable quote carrying the rejection's
message (or the fallback message when the reason has none). The embedding
of `checkAvailabilityAndPricing` is a total function of the settled
outcomes, reflecting that the source method catches every fault and always
resolves. -/
theorem c10_pricing_fanout (now : Int) (domain : String) (avail : Bool)
    (rej : Fin 5 → Option (Option String)) :
    (checkAvailabilityAndPricing now domain avail rej).isAvailable = avail ∧
    (avail = false → (checkAvailabilityAndPricing now domain avail rej).pricing = []) ∧
    (avail = true →
      (checkAvailabilityAndPricing now domain avail rej).pricing.length = 5 ∧
      (checkAvailabilityAndPricing now domain avail rej).pricing.map (·.provider) =
        providerNames ∧
      (∀ i : Fin 5, ∀ m : Option String, rej i = some m →
        (checkAvailabilityAndPricing now domain avail rej).pricing.get? i.val =
          some { provider := providerNames.getD i.val "", available := false,
                 registrationPrice := none, renewalPrice := none, currency := "USD",
                 url := "", error := some (m.getD "Failed to check pricing") })) := by
  refine ⟨rfl, ?_, ?_⟩
  · intro ha
    subst ha
    rfl
  · intro ha
    subst ha
    have hpr : (checkAvailabilityAndPricing now domain true rej).pricing =
        settledPricing domain rej := rfl
    refine ⟨?_, ?_, ?_⟩
    · rw [hpr]
      simp [settledPricing]
    · rw [hpr]
      unfold settledPricing
      rw [List.map_ofFn]
      have hfn : ((fun p : DomainPricing => p.provider) ∘
          (fun i : Fin 5 => settleSlot domain i (rej i))) =
          fun i : Fin 5 => providerNames.getD i.val "" :=
        funext (fun i => settleSlot_provider domain i (rej i))
      rw [hfn]
      decide
    · intro i m hm
      rw [hpr]
      unfold settledPricing
      rw [List.get?_ofFn, List.ofFnNthVal, dif_pos i.isLt]
      have hi : (⟨i.val, i.isLt⟩ : Fin 5) = i := rfl
      rw [hi, hm]
      rfl

/-- C10 witness: with the domain example.com, an available probe, and a
settlement where exactly the third provider call rejects with message
"boom", the provider column is the fixed five-provider list and the third
slot holds the error-annotated Porkbun quote. -/
theorem c10_witness :
    (checkAvailabilityAndPricing 0 "example.com" true rejThird).pricing.map (·.provider) =
      providerNames ∧
    (checkAvailabilityAndPricing 0 "example.com" true rejThird).pricing.get? 2 =
      some { provider := "Porkbun", available := false, registrationPrice := none,
             renewalPrice := none, currency := "USD", url := "",
             error := some "boom" } := by
  have h := c10_pricing_fanout 0 "example.com" true rejThird
  refine ⟨(h.2.2 rfl).2.1, ?_⟩
  have h3 := (h.2.2 rfl).2.2 ⟨2, by omega⟩ (some "boom") rfl
  exact h3.trans (by decide)
